import Mathlib

/-!
# go-libconfig, shallowly embedded

A shallow embedding of the go-libconfig lexer, parser, value model and
path-lookup API, with theorems about integer-literal widening, lookup
semantics, array homogeneity, include-depth limiting, string
concatenation and escapes, numeric bases, and token positions.

Modelling conventions:

* Go machine integers (`int`, `int64` on a 64-bit platform) are modelled
  as `Int`; every range comparison the code performs is kept explicit,
  with the platform-dependent constants (`int64(^uint(0) >> 1)`,
  `int64(-1 << (64 - 1))`) evaluated for a 64-bit platform.
* The lexer indexes its input byte by byte (`rune(l.input[l.pos])`), so
  the input is modelled as a list of byte-valued characters; the Unicode
  classifier functions are therefore only needed on code points 0..255
  and are given by their restriction to that range.
* Go `float64` values never influence any property proved here beyond
  "this literal parses as a float", so `strconv.ParseFloat` is modelled
  as an exact-rational reading of the decimal literal (IEEE rounding is
  not modelled).
* Go maps (`map[string]Value`) are modelled as association lists with
  overwrite-on-insert; only lookup and insertion are used by the code.
* The file system consulted by `@include` is modelled as a finite map
  from file name to file contents.
* Every loop of the Go code is modelled as a fuel-indexed recursive
  function.  Each loop either terminates or strictly advances the input
  position, so fuel `input.length + 2` is always sufficient; top-level
  entry points use a generous fixed fuel.
-/

namespace Libconfig

/-! ## Character classes and Go string helpers -/

/-- The NUL character the Go lexer uses as its end-of-input sentinel. -/
def nulChar : Char := Char.ofNat 0

/-- `unicode.IsSpace` restricted to byte-valued runes: tab, LF, VT, FF,
CR, space, NEL (U+0085) and NBSP (U+00A0). -/
def goIsSpace (c : Char) : Bool :=
  c.toNat = 9 || c.toNat = 10 || c.toNat = 11 || c.toNat = 12 ||
  c.toNat = 13 || c.toNat = 32 || c.toNat = 0x85 || c.toNat = 0xA0

/-- `unicode.IsDigit` restricted to byte-valued runes: the ASCII digits. -/
def goIsDigit (c : Char) : Bool :=
  48 ≤ c.toNat && c.toNat ≤ 57

/-- `unicode.IsLetter` restricted to byte-valued runes: ASCII letters and
the Latin-1 letters. -/
def goIsLetter (c : Char) : Bool :=
  (65 ≤ c.toNat && c.toNat ≤ 90) || (97 ≤ c.toNat && c.toNat ≤ 122) ||
  c.toNat = 0xAA || c.toNat = 0xB5 || c.toNat = 0xBA ||
  (0xC0 ≤ c.toNat && c.toNat ≤ 0xD6) || (0xD8 ≤ c.toNat && c.toNat ≤ 0xF6) ||
  (0xF8 ≤ c.toNat && c.toNat ≤ 0xFF)

/-- The hex-digit test the lexer writes out by hand in `readString` and
`readNumber`: `0-9`, `a-f`, `A-F`. -/
def isHexDigitChar (c : Char) : Bool :=
  (48 ≤ c.toNat && c.toNat ≤ 57) || (97 ≤ c.toNat && c.toNat ≤ 102) ||
  (65 ≤ c.toNat && c.toNat ≤ 70)

/-- `unicode.ToLower` restricted to byte-valued runes: ASCII `A-Z` and
Latin-1 `À-Þ` (except `×`) map down by 32, everything else is fixed. -/
def goToLowerChar (c : Char) : Char :=
  if 65 ≤ c.toNat ∧ c.toNat ≤ 90 then Char.ofNat (c.toNat + 32)
  else if 0xC0 ≤ c.toNat ∧ c.toNat ≤ 0xDE ∧ c.toNat ≠ 0xD7 then Char.ofNat (c.toNat + 32)
  else c

/-- `strings.ToLower`, character by character. -/
def goToLower (s : String) : String :=
  String.mk (s.data.map goToLowerChar)

/-- `strings.TrimSpace` on the character list: drop `unicode.IsSpace`
characters from both ends. -/
def goTrimSpaceL (cs : List Char) : List Char :=
  ((cs.dropWhile goIsSpace).reverse.dropWhile goIsSpace).reverse

/-- `strings.HasPrefix s p` (name avoids clashing with list lemmas). -/
def strStartsWith (s p : String) : Bool :=
  p.data.isPrefixOf s.data

/-- `strings.HasSuffix s p`. -/
def strEndsWith (s p : String) : Bool :=
  p.data.isSuffixOf s.data

/-- Association-list lookup, the model of Go map indexing `m[k]`. -/
def assocFind {α : Type} (m : List (String × α)) (k : String) : Option α :=
  match m with
  | [] => none
  | (k', v) :: rest => if k' = k then some v else assocFind rest k

/-- Association-list overwrite-or-append, the model of Go map
assignment `m[k] = v`. -/
def assocSet {α : Type} (m : List (String × α)) (k : String) (v : α) :
    List (String × α) :=
  match m with
  | [] => [(k, v)]
  | (k', v') :: rest =>
    if k' = k then (k, v) :: rest else (k', v') :: assocSet rest k v

/-- `strings.Split` on a one-character separator, on character lists. -/
def splitOnChar (sep : Char) (cs : List Char) : List (List Char) :=
  match cs with
  | [] => [[]]
  | c :: rest =>
    let r := splitOnChar sep rest
    if c = sep then [] :: r
    else
      match r with
      | [] => [[c]]
      | g :: gs => (c :: g) :: gs

/-! ## strconv -/

/-- Digit value of a character for `strconv` parsing: ASCII digits and
letters (lower and upper), checked against the base. -/
def digitInBase (base : Nat) (c : Char) : Option Nat :=
  let v : Option Nat :=
    if 48 ≤ c.toNat ∧ c.toNat ≤ 57 then some (c.toNat - 48)
    else if 97 ≤ c.toNat ∧ c.toNat ≤ 122 then some (c.toNat - 87)
    else if 65 ≤ c.toNat ∧ c.toNat ≤ 90 then some (c.toNat - 55)
    else none
  match v with
  | some d => if d < base then some d else none
  | none => none

/-- Accumulate a digit string in the given base; any invalid character
makes the whole conversion fail (as `strconv.ParseInt` does when called
with an explicit base). -/
def readDigits (base : Nat) (cs : List Char) (acc : Nat) : Option Nat :=
  match cs with
  | [] => some acc
  | c :: rest =>
    match digitInBase base c with
    | none => none
    | some d => readDigits base rest (acc * base + d)

/-- The sign-and-digits part of `strconv.ParseInt` (explicit base, so no
prefix or underscore handling): optional sign, then a non-empty run of
digits of the base. -/
def goParseIntCore (base : Nat) (cs : List Char) : Option Int :=
  let (neg, digits) :=
    match cs with
    | '+' :: rest => (false, rest)
    | '-' :: rest => (true, rest)
    | _ => (false, cs)
  match digits with
  | [] => none
  | _ =>
    match readDigits base digits 0 with
    | none => none
    | some n => some (if neg then -(n : Int) else (n : Int))

/-- `strconv.ParseInt(s, base, bitSize)`: parse, then range-check
against the signed `bitSize`-bit range; a range failure is an error,
which the callers only ever test for, so it is modelled as `none`. -/
def goParseInt (s : String) (base bitSize : Nat) : Option Int :=
  match goParseIntCore base s.data with
  | none => none
  | some val =>
    if -(2 ^ (bitSize - 1) : Int) ≤ val ∧ val ≤ 2 ^ (bitSize - 1) - 1 then
      some val
    else none

/-- Fold a run of ASCII digits to a natural number (helper for the float
reader). -/
def decDigitsVal (cs : List Char) : Nat :=
  cs.foldl (fun a c => a * 10 + (c.toNat - 48)) 0

/-- `strconv.ParseFloat(s, 64)` restricted to the decimal forms the lexer
can produce (optional sign, digits, optional fraction, optional
exponent), returning the literal's exact rational value. -/
def goParseFloat (s : String) : Option Rat :=
  let cs := s.data
  let (neg, cs) :=
    match cs with
    | '+' :: r => (false, r)
    | '-' :: r => (true, r)
    | _ => (false, cs)
  let (ip, cs) := cs.span goIsDigit
  let (fp, cs) :=
    match cs with
    | '.' :: r =>
      let q := r.span goIsDigit
      (q.1, q.2)
    | _ => ([], cs)
  if ip.isEmpty ∧ fp.isEmpty then none
  else
    let mant : Rat := (decDigitsVal (ip ++ fp) : Rat) / (10 : Rat) ^ fp.length
    match cs with
    | [] => some (if neg then -mant else mant)
    | e :: r =>
      if e = 'e' ∨ e = 'E' then
        let (eneg, r) :=
          match r with
          | '+' :: r' => (false, r')
          | '-' :: r' => (true, r')
          | _ => (false, r)
        let (ed, r) := r.span goIsDigit
        if ed.isEmpty ∨ ¬ r.isEmpty then none
        else
          let ex := decDigitsVal ed
          let v := if eneg then mant / (10 : Rat) ^ ex else mant * (10 : Rat) ^ ex
          some (if neg then -v else v)
      else none

/-! ## Value model (`ValueType`, `Value`, constructors) -/

/-- `ValueType`, the tag of the `Value` tagged union. -/
inductive ValueType where
  | TypeInt
  | TypeInt64
  | TypeFloat
  | TypeBool
  | TypeString
  | TypeArray
  | TypeGroup
  | TypeList
deriving DecidableEq, Repr

/-- `ValueType.String()`. -/
def ValueType.goString : ValueType → String
  | .TypeInt => "int"
  | .TypeInt64 => "int64"
  | .TypeFloat => "float"
  | .TypeBool => "bool"
  | .TypeString => "string"
  | .TypeArray => "array"
  | .TypeGroup => "group"
  | .TypeList => "list"

/-- The Go `Value` struct: every representation field is always present,
with `type` (`Type` in Go, renamed because `Type` is reserved in Lean)
selecting the active one.  `GroupVal` is the association-list model of
`map[string]Value`. -/
inductive Value where
  | mk (ArrayVal ListVal : List Value) (StrVal : String)
       (GroupVal : List (String × Value)) (IntVal Int64Val : Int)
       (FloatVal : Rat) (type : ValueType) (BoolVal : Bool) : Value

def Value.ArrayVal : Value → List Value
  | .mk a _ _ _ _ _ _ _ _ => a

def Value.ListVal : Value → List Value
  | .mk _ l _ _ _ _ _ _ _ => l

def Value.StrVal : Value → String
  | .mk _ _ s _ _ _ _ _ _ => s

def Value.GroupVal : Value → List (String × Value)
  | .mk _ _ _ g _ _ _ _ _ => g

def Value.IntVal : Value → Int
  | .mk _ _ _ _ i _ _ _ _ => i

def Value.Int64Val : Value → Int
  | .mk _ _ _ _ _ i _ _ _ => i

def Value.FloatVal : Value → Rat
  | .mk _ _ _ _ _ _ f _ _ => f

def Value.type : Value → ValueType
  | .mk _ _ _ _ _ _ _ t _ => t

def Value.BoolVal : Value → Bool
  | .mk _ _ _ _ _ _ _ _ b => b

/-- The Go zero value `Value{}` (tag zero is `TypeInt`). -/
def zeroValue : Value := .mk [] [] "" [] 0 0 0 .TypeInt false

def NewIntValue (val : Int) : Value := .mk [] [] "" [] val 0 0 .TypeInt false

def NewInt64Value (val : Int) : Value := .mk [] [] "" [] 0 val 0 .TypeInt64 false

def NewFloatValue (val : Rat) : Value := .mk [] [] "" [] 0 0 val .TypeFloat false

def NewBoolValue (val : Bool) : Value := .mk [] [] "" [] 0 0 0 .TypeBool val

def NewStringValue (val : String) : Value := .mk [] [] val [] 0 0 0 .TypeString false

def NewArrayValue (vals : List Value) : Value := .mk vals [] "" [] 0 0 0 .TypeArray false

def NewGroupValue (vals : List (String × Value)) : Value :=
  .mk [] [] "" vals 0 0 0 .TypeGroup false

def NewListValue (vals : List Value) : Value := .mk [] vals "" [] 0 0 0 .TypeList false

/-- `Config` wraps the root value (a group). -/
structure Config where
  Root : Value

/-! ## The platform integer constants

`parseIntegerLiteral` and `LookupInt` compare against
`int64(^uint(0) >> 1)` and `int64(-1 << (64 - 1))`.  On a 64-bit
platform (`uint` is 64 bits wide) these evaluate to the extreme signed
64-bit values. -/

/-- `int64(^uint(0) >> 1)` on a 64-bit platform: `2^63 - 1`. -/
def maxGoInt : Int := 2 ^ 63 - 1

/-- `int64(-1 << (64 - 1))`: `-2^63` (note: this is the minimum of the
64-bit range on every platform, the shift amount is written `64 - 1`,
not tied to the width of `int`). -/
def minGoShift : Int := -(2 ^ 63)

/-! ## Lexer: tokens -/

/-- `TokenType`. -/
inductive TokenType where
  | TokenEOF
  | TokenIdentifier
  | TokenString
  | TokenInteger
  | TokenFloat
  | TokenBoolean
  | TokenAssign
  | TokenSemicolon
  | TokenComma
  | TokenLeftBrace
  | TokenRightBrace
  | TokenLeftBracket
  | TokenRightBracket
  | TokenLeftParen
  | TokenRightParen
  | TokenInclude
  | TokenError
deriving DecidableEq, Repr

/-- `Token` (Go fields `Value`, `Type`, `Line`, `Column`; renamed to
lower case because `Type` is reserved in Lean). -/
structure Token where
  value : String
  type : TokenType
  line : Nat
  column : Nat
deriving DecidableEq, Repr

/-- The mutable lexer state: the full input (byte-valued characters),
the cursor `pos`, the 1-based `line`/`column` of the cursor, the
character under the cursor (`0` at end of input), and the tokens
accumulated so far. -/
structure GoLexer where
  input : List Char
  pos : Nat
  line : Nat
  column : Nat
  current : Char
  tokens : List Token
deriving Repr

/-- `Lexer.advance`: never moves past the last character — at the
boundary it only replaces `current` with the NUL sentinel, leaving
`pos`/`line`/`column` where they are. -/
def lexAdvance (l : GoLexer) : GoLexer :=
  if l.pos + 1 ≥ l.input.length then { l with current := nulChar }
  else
    let line' := if l.current = '\n' then l.line + 1 else l.line
    let column' := if l.current = '\n' then 1 else l.column + 1
    { l with line := line', column := column', pos := l.pos + 1,
             current := l.input.getD (l.pos + 1) nulChar }

/-- `Lexer.peek`. -/
def lexPeek (l : GoLexer) : Char :=
  if l.pos + 1 ≥ l.input.length then nulChar
  else l.input.getD (l.pos + 1) nulChar

/-- Default fuel for the lexer's loops: each iteration either terminates
the loop or advances `pos`, and `pos` never exceeds `input.length`. -/
def lexFuel (l : GoLexer) : Nat := l.input.length + 2

/-- `Lexer.skipWhitespace` loop body. -/
def skipWhitespaceAux : Nat → GoLexer → GoLexer
  | 0, l => l
  | fuel + 1, l =>
    if goIsSpace l.current then skipWhitespaceAux fuel (lexAdvance l) else l

/-- `Lexer.skipWhitespace`. -/
def skipWhitespace (l : GoLexer) : GoLexer :=
  skipWhitespaceAux (lexFuel l) l

/-- The `//`- and `#`-comment loop: skip to end of line or input. -/
def skipLineCommentAux : Nat → GoLexer → GoLexer
  | 0, l => l
  | fuel + 1, l =>
    if l.current ≠ '\n' ∧ l.current ≠ nulChar then
      skipLineCommentAux fuel (lexAdvance l)
    else l

/-- The `/* ... */` loop: skip to the closing `*/` or end of input. -/
def skipBlockCommentAux : Nat → GoLexer → GoLexer
  | 0, l => l
  | fuel + 1, l =>
    if l.current = nulChar then l
    else if l.current = '*' ∧ lexPeek l = '/' then lexAdvance (lexAdvance l)
    else skipBlockCommentAux fuel (lexAdvance l)

/-- `Lexer.skipComment`: returns whether a comment was skipped, plus the
new state. -/
def skipComment (l : GoLexer) : Bool × GoLexer :=
  if l.current = '/' then
    let nxt := lexPeek l
    if nxt = '/' then (true, skipLineCommentAux (lexFuel l) l)
    else if nxt = '*' then
      (true, skipBlockCommentAux (lexFuel l) (lexAdvance (lexAdvance l)))
    else (false, l)
  else if l.current = '#' then (true, skipLineCommentAux (lexFuel l) l)
  else (false, l)

/-- The up-to-two-hex-digit reader inside `readString`'s `\xHH` case. -/
def readHex2 (l : GoLexer) : String × GoLexer :=
  if l.current ≠ nulChar ∧ isHexDigitChar l.current then
    let c1 := l.current
    let l1 := lexAdvance l
    if l1.current ≠ nulChar ∧ isHexDigitChar l1.current then
      (String.mk [c1, l1.current], lexAdvance l1)
    else (String.mk [c1], l1)
  else ("", l)

/-- The main loop of `Lexer.readString`: everything between the opening
and closing quote, decoding escapes.  The `\xHH` case parses the two hex
digits with `strconv.ParseInt(hex, 16, 8)` and appends the rune only on
success; for the named escapes `\\` and `\"` and the default case alike
the appended character is the character itself, so they share an arm. -/
def readStringAux : Nat → GoLexer → List Char → List Char × GoLexer
  | 0, l, acc => (acc, l)
  | fuel + 1, l, acc =>
    if l.current = '"' ∨ l.current = nulChar then (acc, l)
    else if l.current = '\\' then
      let l1 := lexAdvance l
      if l1.current = 'x' then
        let l2 := lexAdvance l1
        let (hex, l3) := readHex2 l2
        let acc' :=
          if hex.length = 2 then
            match goParseInt hex 16 8 with
            | some val => acc ++ [Char.ofNat val.toNat]
            | none => acc
          else acc
        readStringAux fuel l3 acc'
      else
        let d : Char :=
          if l1.current = 'n' then '\n'
          else if l1.current = 'r' then Char.ofNat 13
          else if l1.current = 't' then '\t'
          else if l1.current = 'b' then Char.ofNat 8
          else if l1.current = 'f' then Char.ofNat 12
          else if l1.current = 'a' then Char.ofNat 7
          else if l1.current = 'v' then Char.ofNat 11
          else l1.current
        readStringAux fuel (lexAdvance l1) (acc ++ [d])
    else readStringAux fuel (lexAdvance l) (acc ++ [l.current])

/-- `Lexer.readString`: skip the opening quote, run the body loop, skip
the closing quote if present. -/
def readString (l : GoLexer) : String × GoLexer :=
  let l1 := lexAdvance l
  let (acc, l2) := readStringAux (lexFuel l1) l1 []
  let l3 := if l2.current = '"' then lexAdvance l2 else l2
  (String.mk acc, l3)

/-- Generic "collect characters while the predicate holds" loop, used by
`readIdentifier` and `readNumber`. -/
def readCharsWhile (p : Char → Bool) : Nat → GoLexer → List Char → List Char × GoLexer
  | 0, l, acc => (acc, l)
  | fuel + 1, l, acc =>
    if p l.current then readCharsWhile p fuel (lexAdvance l) (acc ++ [l.current])
    else (acc, l)

/-- The character class of `Lexer.readIdentifier`: letters, digits,
underscore, dash, star. -/
def isIdentChar (c : Char) : Bool :=
  goIsLetter c || goIsDigit c || c = '_' || c = '-' || c = '*'

/-- `Lexer.readIdentifier`. -/
def readIdentifier (l : GoLexer) : String × GoLexer :=
  let (cs, l') := readCharsWhile isIdentChar (lexFuel l) l []
  (String.mk cs, l')

/-- `Lexer.readNumber`: base-prefixed or decimal integer part, optional
fraction and exponent (which reclassify the token as a float), optional
`L`/`l` suffix retained in the text. -/
def readNumber (l : GoLexer) : TokenType × String × GoLexer :=
  let fuel := lexFuel l
  let (pre, l) :=
    if l.current = '0' then
      let l1 := lexAdvance l
      if l1.current = 'x' ∨ l1.current = 'X' then
        let (ds, l2) := readCharsWhile isHexDigitChar fuel (lexAdvance l1) []
        ('0' :: l1.current :: ds, l2)
      else if l1.current = 'b' ∨ l1.current = 'B' then
        let (ds, l2) := readCharsWhile (fun c => c = '0' || c = '1') fuel (lexAdvance l1) []
        ('0' :: l1.current :: ds, l2)
      else if l1.current = 'o' ∨ l1.current = 'O' ∨ l1.current = 'q' ∨ l1.current = 'Q' then
        let (ds, l2) := readCharsWhile (fun c => 48 ≤ c.toNat && c.toNat ≤ 55) fuel (lexAdvance l1) []
        ('0' :: l1.current :: ds, l2)
      else
        let (ds, l2) := readCharsWhile goIsDigit fuel l1 []
        ('0' :: ds, l2)
    else
      readCharsWhile goIsDigit fuel l []
  let (isFloat1, pre, l) :=
    if l.current = '.' ∧ goIsDigit (lexPeek l) then
      let (ds, l2) := readCharsWhile goIsDigit fuel (lexAdvance l) []
      (true, pre ++ '.' :: ds, l2)
    else (false, pre, l)
  let (isFloat2, pre, l) :=
    if l.current = 'e' ∨ l.current = 'E' then
      let e := l.current
      let l1 := lexAdvance l
      let (sgn, l2) :=
        if l1.current = '+' ∨ l1.current = '-' then ([l1.current], lexAdvance l1)
        else ([], l1)
      let (ds, l3) := readCharsWhile goIsDigit fuel l2 []
      (true, pre ++ e :: sgn ++ ds, l3)
    else (false, pre, l)
  let (pre, l) :=
    if l.current = 'L' ∨ l.current = 'l' then (pre ++ [l.current], lexAdvance l)
    else (pre, l)
  (if isFloat1 ∨ isFloat2 then .TokenFloat else .TokenInteger, String.mk pre, l)

/-- Append one token to the lexer's output. -/
def emitToken (l : GoLexer) (t : Token) : GoLexer :=
  { l with tokens := l.tokens ++ [t] }

/-- The body of `Lexer.tokenize`'s main loop.  `startLine`/`startColumn`
are captured before `skipWhitespace`, exactly as in the source. -/
def tokenizeAux : Nat → GoLexer → GoLexer
  | 0, l => l
  | fuel + 1, l =>
    if l.current = nulChar then l
    else
      let startLine := l.line
      let startColumn := l.column
      let l := skipWhitespace l
      if l.current = nulChar then l
      else
        let (skipped, l1) := skipComment l
        if skipped then tokenizeAux fuel l1
        else
          let l := l1
          let one : TokenType → GoLexer :=
            fun tt => lexAdvance (emitToken l
              { value := String.mk [l.current], type := tt,
                line := startLine, column := startColumn })
          if l.current = '=' ∨ l.current = ':' then tokenizeAux fuel (one .TokenAssign)
          else if l.current = ';' then tokenizeAux fuel (one .TokenSemicolon)
          else if l.current = ',' then tokenizeAux fuel (one .TokenComma)
          else if l.current = '{' then tokenizeAux fuel (one .TokenLeftBrace)
          else if l.current = '}' then tokenizeAux fuel (one .TokenRightBrace)
          else if l.current = '[' then tokenizeAux fuel (one .TokenLeftBracket)
          else if l.current = ']' then tokenizeAux fuel (one .TokenRightBracket)
          else if l.current = '(' then tokenizeAux fuel (one .TokenLeftParen)
          else if l.current = ')' then tokenizeAux fuel (one .TokenRightParen)
          else if l.current = '"' then
            let (v, l2) := readString l
            tokenizeAux fuel (emitToken l2
              { value := v, type := .TokenString,
                line := startLine, column := startColumn })
          else if l.current = '@' then
            let l1 := lexAdvance l
            if l1.current = 'i' then
              let (ident, l2) := readIdentifier l1
              if ident = "include" then
                tokenizeAux fuel (emitToken l2
                  { value := "@include", type := .TokenInclude,
                    line := startLine, column := startColumn })
              else
                tokenizeAux fuel (emitToken l2
                  { value := "@" ++ ident, type := .TokenError,
                    line := startLine, column := startColumn })
            else
              tokenizeAux fuel (emitToken l1
                { value := "@", type := .TokenError,
                  line := startLine, column := startColumn })
          else if goIsDigit l.current ∨ (l.current = '-' ∧ goIsDigit (lexPeek l)) then
            let (sign, l1) :=
              if l.current = '-' then ("-", lexAdvance l) else ("", l)
            let (tt, v, l2) := readNumber l1
            tokenizeAux fuel (emitToken l2
              { value := sign ++ v, type := tt,
                line := startLine, column := startColumn })
          else if goIsLetter l.current ∨ l.current = '_' ∨ l.current = '*' then
            let (ident, l1) := readIdentifier l
            let lower := goToLower ident
            if lower = "true" ∨ lower = "false" then
              tokenizeAux fuel (emitToken l1
                { value := lower, type := .TokenBoolean,
                  line := startLine, column := startColumn })
            else
              tokenizeAux fuel (emitToken l1
                { value := ident, type := .TokenIdentifier,
                  line := startLine, column := startColumn })
          else
            tokenizeAux fuel (lexAdvance (emitToken l
              { value := String.mk [l.current], type := .TokenError,
                line := startLine, column := startColumn }))

/-- `NewLexer` + `Lexer.tokenize`: build the initial state over the full
input and run the loop; the token list always ends with exactly one
end-of-input token, stamped with the final cursor position. -/
def tokenizeLexer (input : String) : GoLexer :=
  let cs := input.data
  let l0 : GoLexer :=
    { input := cs, pos := 0, line := 1, column := 1,
      current := cs.headD nulChar, tokens := [] }
  let l := tokenizeAux (cs.length + 2) l0
  emitToken l { value := "", type := .TokenEOF, line := l.line, column := l.column }

/-! ## Parser: errors, state, file system -/

/-- Parser (and integer-conversion) errors.  Each constructor records
the data the corresponding `fmt.Errorf` message interpolates. -/
inductive PErr where
  | invalidIntegerLiteral (s : String)
  | invalidIntegerAt (line : Nat) (inner : PErr)
  | invalidFloatAt (line : Nat)
  | expectedToken (expected actual : TokenType) (line col : Nat)
  | unexpectedToken (t : TokenType) (line col : Nat)
  | expectedIdentifierAt (line col : Nat)
  | expectedAssignmentAt (line col : Nat)
  | arrayTypeMismatch (first elem : String) (line : Nat)
  | includeDepthExceeded (line : Nat)
  | expectedStringAfterInclude (line : Nat)
  | includeFileNotFound (path : String) (tried : List String)
  | errorParsingInclude (path : String) (inner : PErr)
  | failedToOpenFile (path : String)
  | outOfFuel
deriving DecidableEq, Repr

/-- The parser's view of the token stream: the remaining tokens (the
current token is the head) and the token `NextToken` synthesises once
the list is exhausted (end-of-input at the lexer's final position). -/
structure PState where
  toks : List Token
  finTok : Token
deriving DecidableEq, Repr

/-- `p.current`. -/
def PState.cur (s : PState) : Token := s.toks.headD s.finTok

/-- `p.advance()`. -/
def PState.adv (s : PState) : PState := { s with toks := s.toks.tail }

/-- `p.expect(tokenType)`. -/
def expectTok (t : TokenType) (st : PState) : Except PErr PState :=
  if st.cur.type ≠ t then
    .error (.expectedToken t st.cur.type st.cur.line st.cur.column)
  else .ok st.adv

/-- The file system, a finite map from file name to contents. -/
abbrev Fs := List (String × String)

/-- `fileExists`, against the modelled file system. -/
def fsExists (fs : Fs) (path : String) : Bool :=
  (assocFind fs path).isSome

/-- `filepath.Dir` for the path shapes the parser meets: everything
before the final `/`, or `.` for a bare file name (full path cleaning is
not modelled; the claims only use slash-free and single-directory
paths). -/
def goDir (path : String) : String :=
  if path.data.contains '/' then
    String.mk ((path.data.reverse.dropWhile (fun c => c ≠ '/')).tail.reverse)
  else "."

/-- `filepath.Join(base, p)` for the cleaned bases the parser produces:
an empty or `.` base leaves `p` alone, otherwise the two are joined
with `/`. -/
def goJoin (base p : String) : String :=
  if base = "" ∨ base = "." then p else base ++ "/" ++ p

/-- `mergeConfig`: shallow overwrite-by-key union of the source group's
entries into the target group (both are groups whenever the parser calls
it, so only the map union is modelled). -/
def mergeGroup (target source : List (String × Value)) : List (String × Value) :=
  source.foldl (fun acc kv => assocSet acc kv.1 kv.2) target

/-- `parseIntegerLiteral`: trim, strip an `L`/`l` suffix, parse in the
base selected by the prefix, then pick the 32- or 64-bit representation
using the platform comparison constants (see `maxGoInt`, `minGoShift`). -/
def parseIntegerLiteral (s0 : String) : Except PErr Value :=
  let s1 := String.mk (goTrimSpaceL s0.data)
  let isLong := strEndsWith s1 ("L") || strEndsWith s1 ("l")
  let s := if isLong then String.mk s1.data.dropLast else s1
  let r : Option Int :=
    if strStartsWith s ("0x") || strStartsWith s ("0X") then
      goParseInt (String.mk (s.data.drop 2)) 16 64
    else if strStartsWith s ("0b") || strStartsWith s ("0B") then
      goParseInt (String.mk (s.data.drop 2)) 2 64
    else if strStartsWith s ("0o") || strStartsWith s ("0O") ||
            strStartsWith s ("0q") || strStartsWith s ("0Q") then
      goParseInt (String.mk (s.data.drop 2)) 8 64
    else
      goParseInt s 10 64
  match r with
  | none => .error (.invalidIntegerLiteral s)
  | some val =>
    if isLong || decide (val > maxGoInt) || decide (val < minGoShift) then
      .ok (NewInt64Value val)
    else
      .ok (NewIntValue val)

/-- Close an array: `expect(']')` then wrap the elements. -/
def finishArray (elements : List Value) (st : PState) : Except PErr (Value × PState) :=
  match expectTok .TokenRightBracket st with
  | .error e => .error e
  | .ok st' => .ok (NewArrayValue elements, st')

/-- Close a list: `expect(')')` then wrap the elements. -/
def finishList (elements : List Value) (st : PState) : Except PErr (Value × PState) :=
  match expectTok .TokenRightParen st with
  | .error e => .error e
  | .ok st' => .ok (NewListValue elements, st')

mutual

/-- `Parser.Parse`: the top-level setting/include loop, accumulating the
root group. -/
def parseTop (fuel : Nat) (fs : Fs) (baseDir : String) (depth : Nat)
    (root : List (String × Value)) (st : PState) : Except PErr Config :=
match fuel with
| 0 => .error .outOfFuel
| fuel + 1 =>
  if st.cur.type = .TokenEOF then .ok ⟨NewGroupValue root⟩
  else if st.cur.type = .TokenInclude then
    match parseInclude fuel fs baseDir depth root st with
    | .error e => .error e
    | .ok (root', st') => parseTop fuel fs baseDir depth root' st'
  else
    match parseSetting fuel fs baseDir depth st with
    | .error e => .error e
    | .ok (name, value, st') =>
      let root' := assocSet root name value
      let st'' := if st'.cur.type = .TokenSemicolon then st'.adv else st'
      parseTop fuel fs baseDir depth root' st''
termination_by structural fuel

/-- `Parser.parseInclude`: depth guard, mandatory string, optional
semicolon, path resolution with `.cnf`/`.cfg` fallbacks, recursive file
parse at `depth + 1`, merge into the target group. -/
def parseInclude (fuel : Nat) (fs : Fs) (baseDir : String) (depth : Nat)
    (target : List (String × Value)) (st : PState) :
    Except PErr (List (String × Value) × PState) :=
match fuel with
| 0 => .error .outOfFuel
| fuel + 1 =>
  if depth ≥ 10 then .error (.includeDepthExceeded st.cur.line)
  else
    let st1 := st.adv
    if st1.cur.type ≠ .TokenString then
      .error (.expectedStringAfterInclude st1.cur.line)
    else
      let includePath := st1.cur.value
      let st2 := st1.adv
      let st3 := if st2.cur.type = .TokenSemicolon then st2.adv else st2
      let fullPath := if baseDir ≠ "" then goJoin baseDir includePath else includePath
      let possiblePaths := [fullPath, fullPath ++ ".cnf", fullPath ++ ".cfg"]
      match possiblePaths.find? (fun p => fsExists fs p) with
      | none => .error (.includeFileNotFound includePath possiblePaths)
      | some existingPath =>
        match parseFileWithDepth fuel fs existingPath (depth + 1) with
        | .error e => .error (.errorParsingInclude existingPath e)
        | .ok cfg => .ok (mergeGroup target cfg.Root.GroupVal, st3)
termination_by structural fuel

/-- `parseFileWithDepth`: read the file, lex it, and parse it with the
file's directory as base and the given include depth. -/
def parseFileWithDepth (fuel : Nat) (fs : Fs) (filename : String) (depth : Nat) :
    Except PErr Config :=
match fuel with
| 0 => .error .outOfFuel
| fuel + 1 =>
  match assocFind fs filename with
  | none => .error (.failedToOpenFile filename)
  | some content =>
    let lx := tokenizeLexer content
    let st : PState :=
      { toks := lx.tokens,
        finTok := { value := "", type := .TokenEOF, line := lx.line, column := lx.column } }
    parseTop fuel fs (goDir filename) depth [] st
termination_by structural fuel

/-- `Parser.parseSetting`: `IDENTIFIER (=|:) value`. -/
def parseSetting (fuel : Nat) (fs : Fs) (baseDir : String) (depth : Nat)
    (st : PState) : Except PErr (String × Value × PState) :=
match fuel with
| 0 => .error .outOfFuel
| fuel + 1 =>
  if st.cur.type ≠ .TokenIdentifier then
    .error (.expectedIdentifierAt st.cur.line st.cur.column)
  else
    let name := st.cur.value
    let st1 := st.adv
    if st1.cur.type ≠ .TokenAssign then
      .error (.expectedAssignmentAt st1.cur.line st1.cur.column)
    else
      match parseValue fuel fs baseDir depth st1.adv with
      | .error e => .error e
      | .ok (v, st') => .ok (name, v, st')
termination_by structural fuel

/-- `Parser.parseValue`: scalar, group, array or list, by the current
token's type. -/
def parseValue (fuel : Nat) (fs : Fs) (baseDir : String) (depth : Nat)
    (st : PState) : Except PErr (Value × PState) :=
match fuel with
| 0 => .error .outOfFuel
| fuel + 1 =>
  if st.cur.type = .TokenString then
    stringConcatLoop fuel st.cur.value st.adv
  else if st.cur.type = .TokenInteger then
    match parseIntegerLiteral st.cur.value with
    | .error e => .error (.invalidIntegerAt st.cur.line e)
    | .ok v => .ok (v, st.adv)
  else if st.cur.type = .TokenFloat then
    match goParseFloat st.cur.value with
    | none => .error (.invalidFloatAt st.cur.line)
    | some f => .ok (NewFloatValue f, st.adv)
  else if st.cur.type = .TokenBoolean then
    .ok (NewBoolValue (st.cur.value = "true"), st.adv)
  else if st.cur.type = .TokenLeftBrace then
    parseGroup fuel fs baseDir depth st
  else if st.cur.type = .TokenLeftBracket then
    parseArray fuel fs baseDir depth st
  else if st.cur.type = .TokenLeftParen then
    parseList fuel fs baseDir depth st
  else
    .error (.unexpectedToken st.cur.type st.cur.line st.cur.column)
termination_by structural fuel

/-- The adjacent-string-concatenation loop inside `parseValue`'s string
case. -/
def stringConcatLoop (fuel : Nat) (acc : String) (st : PState) :
    Except PErr (Value × PState) :=
match fuel with
| 0 => .error .outOfFuel
| fuel + 1 =>
  if st.cur.type = .TokenString then
    stringConcatLoop fuel (acc ++ st.cur.value) st.adv
  else .ok (NewStringValue acc, st)
termination_by structural fuel

/-- `Parser.parseGroup`. -/
def parseGroup (fuel : Nat) (fs : Fs) (baseDir : String) (depth : Nat)
    (st : PState) : Except PErr (Value × PState) :=
match fuel with
| 0 => .error .outOfFuel
| fuel + 1 =>
  match expectTok .TokenLeftBrace st with
  | .error e => .error e
  | .ok st1 => groupLoop fuel fs baseDir depth [] st1
termination_by structural fuel

/-- The member loop of `parseGroup`: settings and includes until the
closing brace (or end of input, which then fails the final expect). -/
def groupLoop (fuel : Nat) (fs : Fs) (baseDir : String) (depth : Nat)
    (group : List (String × Value)) (st : PState) : Except PErr (Value × PState) :=
match fuel with
| 0 => .error .outOfFuel
| fuel + 1 =>
  if st.cur.type ≠ .TokenRightBrace ∧ st.cur.type ≠ .TokenEOF then
    if st.cur.type = .TokenInclude then
      match parseInclude fuel fs baseDir depth group st with
      | .error e => .error e
      | .ok (group', st') => groupLoop fuel fs baseDir depth group' st'
    else
      match parseSetting fuel fs baseDir depth st with
      | .error e => .error e
      | .ok (name, v, st') =>
        let group' := assocSet group name v
        let st'' := if st'.cur.type = .TokenSemicolon then st'.adv else st'
        groupLoop fuel fs baseDir depth group' st''
  else
    match expectTok .TokenRightBrace st with
    | .error e => .error e
    | .ok st' => .ok (NewGroupValue group, st')
termination_by structural fuel

/-- `Parser.parseArray`: `[`, optional empty close, first element, then
the comma loop with the homogeneity check. -/
def parseArray (fuel : Nat) (fs : Fs) (baseDir : String) (depth : Nat)
    (st : PState) : Except PErr (Value × PState) :=
match fuel with
| 0 => .error .outOfFuel
| fuel + 1 =>
  match expectTok .TokenLeftBracket st with
  | .error e => .error e
  | .ok st1 =>
    if st1.cur.type = .TokenRightBracket then .ok (NewArrayValue [], st1.adv)
    else
      match parseValue fuel fs baseDir depth st1 with
      | .error e => .error e
      | .ok (firstElement, st2) =>
        arrayLoop fuel fs baseDir depth firstElement [firstElement] st2
termination_by structural fuel

/-- The comma loop of `parseArray`; a trailing comma breaks out to the
closing expect, and an element whose type differs from the first
element's is a fatal mismatch naming both type strings and the line of
the token after the element. -/
def arrayLoop (fuel : Nat) (fs : Fs) (baseDir : String) (depth : Nat)
    (firstElement : Value) (elements : List Value) (st : PState) :
    Except PErr (Value × PState) :=
match fuel with
| 0 => .error .outOfFuel
| fuel + 1 =>
  if st.cur.type = .TokenComma then
    let st1 := st.adv
    if st1.cur.type = .TokenRightBracket then finishArray elements st1
    else
      match parseValue fuel fs baseDir depth st1 with
      | .error e => .error e
      | .ok (element, st2) =>
        if element.type ≠ firstElement.type then
          .error (.arrayTypeMismatch firstElement.type.goString element.type.goString
                    st2.cur.line)
        else
          arrayLoop fuel fs baseDir depth firstElement (elements ++ [element]) st2
  else finishArray elements st
termination_by structural fuel

/-- `Parser.parseList`: like `parseArray` but heterogeneous. -/
def parseList (fuel : Nat) (fs : Fs) (baseDir : String) (depth : Nat)
    (st : PState) : Except PErr (Value × PState) :=
match fuel with
| 0 => .error .outOfFuel
| fuel + 1 =>
  match expectTok .TokenLeftParen st with
  | .error e => .error e
  | .ok st1 =>
    if st1.cur.type = .TokenRightParen then .ok (NewListValue [], st1.adv)
    else
      match parseValue fuel fs baseDir depth st1 with
      | .error e => .error e
      | .ok (element, st2) => listLoop fuel fs baseDir depth [element] st2
termination_by structural fuel

/-- The comma loop of `parseList`. -/
def listLoop (fuel : Nat) (fs : Fs) (baseDir : String) (depth : Nat)
    (elements : List Value) (st : PState) : Except PErr (Value × PState) :=
match fuel with
| 0 => .error .outOfFuel
| fuel + 1 =>
  if st.cur.type = .TokenComma then
    let st1 := st.adv
    if st1.cur.type = .TokenRightParen then finishList elements st1
    else
      match parseValue fuel fs baseDir depth st1 with
      | .error e => .error e
      | .ok (element, st2) => listLoop fuel fs baseDir depth (elements ++ [element]) st2
  else finishList elements st

termination_by structural fuel
end

/-- Fixed fuel for the top-level entry points; far more than any input
in this development can consume. -/
def topFuel : Nat := 5000

/-- Build the parser state over a lexer's output (what `NewParser` +
`NextToken` deliver). -/
def pstateOfLexer (lx : GoLexer) : PState :=
  { toks := lx.tokens,
    finTok := { value := "", type := .TokenEOF, line := lx.line, column := lx.column } }

/-- `ParseString` (and `Parse`): lex the whole input and parse it with
no base directory at include depth 0. -/
def ParseStringGo (fs : Fs) (input : String) : Except PErr Config :=
  parseTop topFuel fs "" 0 [] (pstateOfLexer (tokenizeLexer input))

/-- `ParseFile`: parse a named file with its directory as include base,
at include depth 0 (identical to `parseFileWithDepth(filename, 0)`). -/
def ParseFileGo (fs : Fs) (filename : String) : Except PErr Config :=
  parseFileWithDepth topFuel fs filename 0

/-! ## Lookup / Config API -/

/-- Lookup-side errors (`ErrCannotLookupInNonGroup`, `ErrSettingNotFound`,
`ErrIntegerOutOfRange`, `ErrNotInteger`, `ErrNotFloat`, `ErrNotBoolean`,
`ErrNotString`, each with the datum its message interpolates). -/
inductive LookupErr where
  | cannotLookupInNonGroup (part : String)
  | settingNotFound (part : String)
  | integerOutOfRange (val : Int)
  | notInteger (path : String)
  | notFloat (path : String)
  | notBoolean (path : String)
  | notString (path : String)
deriving DecidableEq, Repr

/-- The traversal loop of `Config.Lookup`: empty segments are skipped,
descending from a non-group fails, a missing key fails with the distinct
not-found error. -/
def lookupParts : Value → List String → Except LookupErr Value
  | current, [] => .ok current
  | current, part :: rest =>
    if part = "" then lookupParts current rest
    else if current.type ≠ .TypeGroup then .error (.cannotLookupInNonGroup part)
    else
      match assocFind current.GroupVal part with
      | none => .error (.settingNotFound part)
      | some v => lookupParts v rest

/-- `Config.Lookup`: split the path on `.` and walk from the root. -/
def Config.Lookup (c : Config) (path : String) : Except LookupErr Value :=
  lookupParts c.Root ((splitOnChar '.' path.data).map String.mk)

/-- `Config.LookupInt`: exact for `TypeInt`; for `TypeInt64` the value is
range-checked against `maxGoInt`/`minGoShift` and then converted by
`int(...)` (the identity on a 64-bit platform). -/
def Config.LookupInt (c : Config) (path : String) : Except LookupErr Int :=
  match c.Lookup path with
  | .error e => .error e
  | .ok val =>
    match val.type with
    | .TypeInt => .ok val.IntVal
    | .TypeInt64 =>
      if val.Int64Val > maxGoInt ∨ val.Int64Val < minGoShift then
        .error (.integerOutOfRange val.Int64Val)
      else .ok val.Int64Val
    | _ => .error (.notInteger path)

/-- `Config.LookupInt64`: widens `TypeInt`, exact for `TypeInt64`. -/
def Config.LookupInt64 (c : Config) (path : String) : Except LookupErr Int :=
  match c.Lookup path with
  | .error e => .error e
  | .ok val =>
    match val.type with
    | .TypeInt => .ok val.IntVal
    | .TypeInt64 => .ok val.Int64Val
    | _ => .error (.notInteger path)

/-- `Config.LookupFloat`. -/
def Config.LookupFloat (c : Config) (path : String) : Except LookupErr Rat :=
  match c.Lookup path with
  | .error e => .error e
  | .ok val =>
    if val.type ≠ .TypeFloat then .error (.notFloat path) else .ok val.FloatVal

/-- `Config.LookupBool`. -/
def Config.LookupBool (c : Config) (path : String) : Except LookupErr Bool :=
  match c.Lookup path with
  | .error e => .error e
  | .ok val =>
    if val.type ≠ .TypeBool then .error (.notBoolean path) else .ok val.BoolVal

/-- `Config.LookupString`. -/
def Config.LookupString (c : Config) (path : String) : Except LookupErr String :=
  match c.Lookup path with
  | .error e => .error e
  | .ok val =>
    if val.type ≠ .TypeString then .error (.notString path) else .ok val.StrVal

/-! ## Claim-support definitions -/

/-- The `L`/`l` suffix test `parseIntegerLiteral` applies after
trimming. -/
def longSuffixAfterTrim (s : String) : Bool :=
  let s1 := String.mk (goTrimSpaceL s.data)
  strEndsWith s1 ("L") || strEndsWith s1 ("l")

/-- A config holding one 64-bit value outside the signed 32-bit range,
built with the source's own constructor. -/
def c2cfg : Config :=
  ⟨NewGroupValue [("x", NewInt64Value 9223372036854775807)]⟩

/-- A config holding one 32-bit (`TypeInt`) value. -/
def c2cfgInt : Config :=
  ⟨NewGroupValue [("y", NewIntValue 42)]⟩

/-- The include-chain file system of the repository's depth-limit test:
`n` files `level0.cfg` … `level(n-1).cfg`, each including the next, the
last holding a plain setting. -/
def chainFile (i n : Nat) : String :=
  if i + 1 < n then "@include \"level" ++ toString (i + 1) ++ ".cfg\""
  else "x = 1;"

/-- The file system for an `n`-file include chain. -/
def chainFs (n : Nat) : Fs :=
  (List.range n).map (fun i => ("level" ++ toString i ++ ".cfg", chainFile i n))

/-- Does this parser error report the include depth limit (possibly
wrapped in `error parsing included file` layers)? -/
def PErr.isDepthLimit : PErr → Bool
  | .includeDepthExceeded _ => true
  | .errorParsingInclude _ inner => inner.isDepthLimit
  | _ => false

/-- Did a parse fail with the depth-limit error? -/
def failsWithDepthLimit (r : Except PErr Config) : Bool :=
  match r with
  | .error e => e.isDepthLimit
  | .ok _ => false

/-- Did a parse succeed? -/
def parseSucceeds (r : Except PErr Config) : Bool :=
  match r with
  | .ok _ => true
  | .error _ => false

/-- The 22 hexadecimal digit characters: `0-9`, `a-f`, `A-F`. -/
def hexChars : List Char :=
  (List.range 10).map (fun i => Char.ofNat (48 + i)) ++
  (List.range 6).map (fun i => Char.ofNat (97 + i)) ++
  (List.range 6).map (fun i => Char.ofNat (65 + i))

/-- Numeric value of a hexadecimal digit character. -/
def hexCharVal (c : Char) : Nat :=
  if c.toNat ≤ 57 then c.toNat - 48
  else if 97 ≤ c.toNat then c.toNat - 87
  else c.toNat - 55

/-- Run `readString` on an input that begins with the opening quote
(the state `tokenize` hands it: cursor on the `"`), returning the
decoded string. -/
def readStringOf (s : String) : String :=
  (readString
    { input := s.data, pos := 0, line := 1, column := 1,
      current := s.data.headD nulChar, tokens := [] }).1

/-- A token at a fixed position, for stating parser-level facts whose
positions do not matter. -/
def tokAt (v : String) (t : TokenType) : Token :=
  { value := v, type := t, line := 1, column := 1 }

/-- A nested-group config (`a = { b = { c = 5; }; };`) built with the
source's constructors. -/
def c8cfg : Config :=
  ⟨NewGroupValue [("a", NewGroupValue [("b", NewGroupValue [("c", NewIntValue 5)])])]⟩

/-- Concatenation, with no separator, of a run of tokens' text. -/
def tokenValuesConcat (ts : List Token) : String :=
  String.mk ((ts.map (fun t => t.value.data)).flatten)

/-! ## Helper lemmas -/

/-- `goParseInt` results lie in the requested signed bit range. -/
theorem goParseInt_bounds {s : String} {base bitSize : Nat} {v : Int}
    (h : goParseInt s base bitSize = some v) :
    -(2 ^ (bitSize - 1) : Int) ≤ v ∧ v ≤ 2 ^ (bitSize - 1) - 1 := by
  unfold goParseInt at h
  cases hc : goParseIntCore base s.data with
  | none => rw [hc] at h; exact absurd h (by simp)
  | some val =>
    rw [hc] at h
    dsimp only at h
    by_cases hb : -(2 ^ (bitSize - 1) : Int) ≤ val ∧ val ≤ 2 ^ (bitSize - 1) - 1
    · rw [if_pos hb] at h
      cases h
      exact hb
    · rw [if_neg hb] at h
      cases h

/-- Hexadecimal digit characters are not whitespace. -/
theorem hex_not_space {c : Char} (h : isHexDigitChar c = true) : goIsSpace c = false := by
  simp only [isHexDigitChar, Bool.or_eq_true, Bool.and_eq_true, decide_eq_true_eq] at h
  simp only [goIsSpace, Bool.or_eq_false_iff, decide_eq_false_iff_not]
  omega

/-- Hexadecimal digit characters are neither `L` nor `l`. -/
theorem hex_not_ell {c : Char} (h : isHexDigitChar c = true) : c ≠ 'L' ∧ c ≠ 'l' := by
  simp only [isHexDigitChar, Bool.or_eq_true, Bool.and_eq_true, decide_eq_true_eq] at h
  constructor <;> · intro he; subst he; revert h; decide

/-! ## C1 -/

/-- C1 (amended): a parsed integer literal has kind `Int64` exactly when
the (trimmed) literal carries an `L`/`l` suffix; the value-range test can
never fire, because `strconv.ParseInt(_, _, 64)` already confines the
value to the signed 64-bit range that `int64(^uint(0) >> 1)` /
`int64(-1 << (64 - 1))` delimit on a 64-bit platform.  In particular
`42L` yields kind `Int64` with value 42 — but an unsuffixed literal such
as `1234567890123` yields kind `Int` (see the counterexample). -/
theorem c1_int64_kind_iff_long_suffix :
    (∀ (s : String) (v : Value), parseIntegerLiteral s = .ok v →
        (v.type = ValueType.TypeInt64 ↔ longSuffixAfterTrim s = true)) ∧
    parseIntegerLiteral ("42L") = .ok (NewInt64Value 42) := by
  constructor
  · intro s v h
    simp only [parseIntegerLiteral] at h
    simp only [longSuffixAfterTrim]
    generalize hL : (strEndsWith (String.mk (goTrimSpaceL s.data)) ("L") ||
        strEndsWith (String.mk (goTrimSpaceL s.data)) ("l")) = isLong at h ⊢
    split at h
    · cases h
    · rename_i val heq
      cases isLong with
      | true =>
        rw [Bool.true_or, Bool.true_or, if_pos rfl] at h
        cases h
        simp [NewInt64Value, Value.type]
      | false =>
        simp only [Bool.false_eq_true, if_false] at heq h
        have hb : -(2 ^ 63 : Int) ≤ val ∧ val ≤ 2 ^ 63 - 1 := by
          split at heq
          · exact goParseInt_bounds heq
          · split at heq
            · exact goParseInt_bounds heq
            · split at heq
              · exact goParseInt_bounds heq
              · exact goParseInt_bounds heq
        have h1 : decide (val > maxGoInt) = false := by
          simp only [maxGoInt, decide_eq_false_iff_not, not_lt]
          omega
        have h2 : decide (val < minGoShift) = false := by
          simp only [minGoShift, decide_eq_false_iff_not, not_lt]
          omega
        rw [h1, h2, Bool.false_or, Bool.false_or, if_neg Bool.false_ne_true] at h
        cases h
        simp [NewIntValue, Value.type]
  · rfl

/-- C1 witness: the amended theorem applied at the literal `42L`. -/
theorem c1_witness :
    (NewInt64Value 42).type = ValueType.TypeInt64 ↔ longSuffixAfterTrim ("42L") = true :=
  c1_int64_kind_iff_long_suffix.1 ("42L") (NewInt64Value 42) c1_int64_kind_iff_long_suffix.2

/-- C1 counterexample: the unsuffixed literal `1234567890123` lies far
outside the signed 32-bit range, yet parses to kind `Int`, not `Int64`,
refuting the claim as stated. -/
theorem c1_counterexample :
    parseIntegerLiteral ("1234567890123") = .ok (NewIntValue 1234567890123) ∧
    (NewIntValue 1234567890123).type ≠ ValueType.TypeInt64 :=
  ⟨rfl, by decide⟩

/-! ## C2 -/

/-- C2 (amended): `LookupInt` on an `Int64`-kind value always succeeds
and returns the stored number — the range guard compares against the
64-bit bounds (`int64(^uint(0) >> 1)` and `int64(-1 << (64 - 1))` on a
64-bit platform), which an `int64` value can never exceed, so the
out-of-range error is unreachable; `LookupInt64` on an `Int`-kind value
always succeeds via widening. -/
theorem c2_lookup_widening :
    (∀ (c : Config) (path : String) (v : Value),
        c.Lookup path = .ok v → v.type = ValueType.TypeInt64 →
        -(2 ^ 63) ≤ v.Int64Val → v.Int64Val ≤ 2 ^ 63 - 1 →
        c.LookupInt path = .ok v.Int64Val) ∧
    (∀ (c : Config) (path : String) (v : Value),
        c.Lookup path = .ok v → v.type = ValueType.TypeInt →
        c.LookupInt64 path = .ok v.IntVal) := by
  constructor
  · intro c path v h ht h1 h2
    unfold Config.LookupInt
    rw [h]
    dsimp only
    rw [ht]
    have : ¬ (v.Int64Val > maxGoInt ∨ v.Int64Val < minGoShift) := by
      simp only [maxGoInt, minGoShift, not_or, not_lt]
      omega
    rw [if_neg this]
  · intro c path v h ht
    unfold Config.LookupInt64
    rw [h]
    dsimp only
    rw [ht]

/-- C2 witness: the amended theorem applied to a config holding the
maximal `int64` (far outside the 32-bit range) and to one holding a
32-bit value. -/
theorem c2_witness :
    c2cfg.LookupInt ("x") = .ok 9223372036854775807 ∧
    c2cfgInt.LookupInt64 ("y") = .ok 42 :=
  ⟨c2_lookup_widening.1 c2cfg ("x") (NewInt64Value 9223372036854775807) rfl rfl
      (by decide) (by decide),
   c2_lookup_widening.2 c2cfgInt ("y") (NewIntValue 42) rfl rfl⟩

/-- C2 counterexample: the stored `Int64` value `9223372036854775807`
does not fit the signed 32-bit range, yet `LookupInt` returns it without
an out-of-range error, refuting the claim as stated. -/
theorem c2_counterexample :
    c2cfg.Lookup ("x") = .ok (NewInt64Value 9223372036854775807) ∧
    ¬ ((9223372036854775807 : Int) ≤ 2 ^ 31 - 1) ∧
    c2cfg.LookupInt ("x") = .ok 9223372036854775807 :=
  ⟨rfl, by decide, rfl⟩

/-! ## C6 -/

/-- C6: parsing a setting assigning each base-prefixed literal (and its
case variants) yields the integer 255, 10 or 493 respectively, bound as
a 32-bit (`TypeInt`) value. -/
theorem c6_numeric_bases :
    ParseStringGo [] ("value = 0xFF;") = .ok ⟨NewGroupValue [("value", NewIntValue 255)]⟩ ∧
    ParseStringGo [] ("value = 0XFF;") = .ok ⟨NewGroupValue [("value", NewIntValue 255)]⟩ ∧
    ParseStringGo [] ("value = 0xff;") = .ok ⟨NewGroupValue [("value", NewIntValue 255)]⟩ ∧
    ParseStringGo [] ("value = 0xfF;") = .ok ⟨NewGroupValue [("value", NewIntValue 255)]⟩ ∧
    ParseStringGo [] ("value = 0b1010;") = .ok ⟨NewGroupValue [("value", NewIntValue 10)]⟩ ∧
    ParseStringGo [] ("value = 0B1010;") = .ok ⟨NewGroupValue [("value", NewIntValue 10)]⟩ ∧
    ParseStringGo [] ("value = 0o755;") = .ok ⟨NewGroupValue [("value", NewIntValue 493)]⟩ ∧
    ParseStringGo [] ("value = 0O755;") = .ok ⟨NewGroupValue [("value", NewIntValue 493)]⟩ ∧
    ParseStringGo [] ("value = 0q755;") = .ok ⟨NewGroupValue [("value", NewIntValue 493)]⟩ ∧
    ParseStringGo [] ("value = 0Q755;") = .ok ⟨NewGroupValue [("value", NewIntValue 493)]⟩ :=
  ⟨rfl, rfl, rfl, rfl, rfl, rfl, rfl, rfl, rfl, rfl⟩

/-! ## C9 -/

/-- C9 (code behaviour at the failing input): `tokenize` captures
`startLine`/`startColumn` *before* `skipWhitespace`, so a token preceded
by whitespace records the position where the whitespace run begins, not
its own first character.  In `"a\n= 1"` the `=` sits at line 2, column 1
(the input characters are `a`, newline, `=`, space, `1`), yet its token
records line 1, column 2 — the position of the newline following `a`;
the `1` at line 2 column 3 records column 2, the position of the space.
The list does end with exactly one end-of-input token. -/
theorem c9_token_positions :
    (tokenizeLexer ("a\n= 1")).tokens =
      [{ value := "a", type := .TokenIdentifier, line := 1, column := 1 },
       { value := "=", type := .TokenAssign, line := 1, column := 2 },
       { value := "1", type := .TokenInteger, line := 2, column := 2 },
       { value := "", type := .TokenEOF, line := 2, column := 3 }] ∧
    ("a\n= 1").data = ['a', '\n', '=', ' ', '1'] :=
  ⟨rfl, rfl⟩

/-! ## C4 -/

set_option maxHeartbeats 4000000 in
set_option maxRecDepth 100000 in
/-- C4: include recursion is bounded by the fixed ceiling 10:
`parseInclude` at any depth ≥ 10 fails immediately with the depth-limit
error; entry points parse the root at depth 0 and each nested include
parses its file at depth+1, so the repository-test chain of 12 files
each including the next fails with a depth-limit error while a chain of
9 succeeds. -/
theorem c4_include_depth_limit :
    (∀ (fuel : Nat) (fs : Fs) (baseDir : String) (depth : Nat)
        (target : List (String × Value)) (st : PState), 10 ≤ depth →
        parseInclude (fuel + 1) fs baseDir depth target st =
          .error (.includeDepthExceeded st.cur.line)) ∧
    failsWithDepthLimit (ParseFileGo (chainFs 12) ("level0.cfg")) = true ∧
    parseSucceeds (ParseFileGo (chainFs 9) ("level0.cfg")) = true := by
  refine ⟨?_, rfl, rfl⟩
  intro fuel fs baseDir depth target st h
  unfold parseInclude
  rw [if_pos h]

/-- C4 witness: the depth-limit conjunct applied at depth 10 with a
concrete parser state. -/
theorem c4_witness :
    parseInclude 1 [] "" 10 [] (pstateOfLexer (tokenizeLexer (""))) =
      .error (.includeDepthExceeded 1) :=
  c4_include_depth_limit.1 0 [] "" 10 [] (pstateOfLexer (tokenizeLexer (""))) (by decide)

/-! ## C8 -/

/-- Dropping the empty segments from a path never changes the lookup
result, because the traversal loop skips them itself. -/
theorem lookupParts_filter (parts : List String) :
    ∀ v : Value, lookupParts v (parts.filter (fun p => p ≠ "")) = lookupParts v parts := by
  induction parts with
  | nil => intro v; rfl
  | cons p ps ih =>
    intro v
    simp only [List.filter_cons]
    by_cases hp : p = ""
    · subst hp
      rw [if_neg (by simp)]
      rw [ih v]
      have h0 : lookupParts v ("" :: ps) = lookupParts v ps := by
        simp [lookupParts]
      rw [h0]
    · rw [if_pos (by simpa using hp)]
      simp only [lookupParts]
      rw [if_neg hp, if_neg hp]
      by_cases hg : v.type = ValueType.TypeGroup
      · rw [if_neg (not_not_intro hg), if_neg (not_not_intro hg)]
        cases hf : assocFind v.GroupVal p with
        | none => rfl
        | some v' => exact ih v'
      · rw [if_pos hg, if_pos hg]

/-- C8: `Lookup` splits on `.` and silently skips empty segments (the
result equals the traversal of the non-empty segments, so leading,
trailing and doubled dots change nothing); a path of only empty
segments returns the root itself; descending a non-empty segment from a
non-group fails with the cannot-lookup-in-non-group error, while a
missing key in a group fails with the distinct setting-not-found
error. -/
theorem c8_lookup_path_semantics :
    (∀ (c : Config) (path : String),
        c.Lookup path =
          lookupParts c.Root
            (((splitOnChar '.' path.data).map String.mk).filter (fun p => p ≠ ""))) ∧
    (∀ (c : Config) (path : String),
        (((splitOnChar '.' path.data).map String.mk).all (fun p => p = "")) = true →
        c.Lookup path = .ok c.Root) ∧
    (∀ (v : Value) (part : String) (rest : List String),
        part ≠ "" → v.type ≠ ValueType.TypeGroup →
        lookupParts v (part :: rest) = .error (.cannotLookupInNonGroup part)) ∧
    (∀ (v : Value) (part : String) (rest : List String),
        part ≠ "" → v.type = ValueType.TypeGroup → assocFind v.GroupVal part = none →
        lookupParts v (part :: rest) = .error (.settingNotFound part)) ∧
    (∀ (p q : String), LookupErr.cannotLookupInNonGroup p ≠ LookupErr.settingNotFound q) := by
  refine ⟨?_, ?_, ?_, ?_, ?_⟩
  · intro c path
    exact (lookupParts_filter _ c.Root).symm
  · intro c path hall
    have h1 : c.Lookup path =
        lookupParts c.Root
          (((splitOnChar '.' path.data).map String.mk).filter (fun p => p ≠ "")) :=
      (lookupParts_filter _ c.Root).symm
    have h2 : (((splitOnChar '.' path.data).map String.mk).filter (fun p => p ≠ "")) = [] := by
      rw [List.filter_eq_nil_iff]
      intro a ha
      have := List.all_eq_true.mp hall a ha
      simp_all
    rw [h1, h2]
    rfl
  · intro v part rest hp ht
    simp only [lookupParts]
    rw [if_neg hp, if_pos ht]
  · intro v part rest hp ht hf
    simp only [lookupParts]
    rw [if_neg hp, if_neg (not_not_intro ht), hf]
  · intro p q h
    exact LookupErr.noConfusion h

/-- C8 witness: the theorem's parts applied to a nested-group config and
concrete paths (`".a..b."` with stray dots, the all-empty path `""`,
descending from the non-group `5`, and a missing key). -/
theorem c8_witness :
    c8cfg.Lookup (".a..b.") =
      lookupParts c8cfg.Root
        (((splitOnChar '.' (".a..b.").data).map String.mk).filter (fun p => p ≠ "")) ∧
    c8cfg.Lookup ("") = .ok c8cfg.Root ∧
    lookupParts (NewIntValue 5) (["d"]) = .error (.cannotLookupInNonGroup "d") ∧
    lookupParts c8cfg.Root (["x"]) = .error (.settingNotFound "x") ∧
    LookupErr.cannotLookupInNonGroup "a" ≠ LookupErr.settingNotFound "a" :=
  ⟨c8_lookup_path_semantics.1 c8cfg (".a..b."),
   c8_lookup_path_semantics.2.1 c8cfg ("") (by decide),
   c8_lookup_path_semantics.2.2.1 (NewIntValue 5) ("d") [] (by decide) (by decide),
   c8_lookup_path_semantics.2.2.2.1 c8cfg.Root ("x") [] (by decide) rfl rfl,
   c8_lookup_path_semantics.2.2.2.2 ("a") ("a")⟩

/-! ## C5 -/

/-- The concatenation loop of `parseValue` consumes exactly the leading
run of STRING tokens, appending their texts (with no separator) to the
accumulator, and stops at the first non-string token. -/
theorem stringConcatLoop_run (ts : List Token) :
    ∀ (fuel : Nat) (acc : String) (st : PState),
      (∀ t ∈ ts, t.type = TokenType.TokenString) →
      st.cur.type ≠ TokenType.TokenString →
      ts.length + 1 ≤ fuel →
      stringConcatLoop fuel acc { toks := ts ++ st.toks, finTok := st.finTok } =
        .ok (NewStringValue (acc ++ tokenValuesConcat ts), st) := by
  induction ts with
  | nil =>
    intro fuel acc st _ hcur hf
    cases fuel with
    | zero => omega
    | succ fuel =>
      have he : acc ++ tokenValuesConcat [] = acc := String.append_empty acc
      rw [he]
      show stringConcatLoop (fuel + 1) acc st = .ok (NewStringValue acc, st)
      simp only [stringConcatLoop]
      rw [if_neg hcur]
  | cons t ts ih =>
    intro fuel acc st hall hcur hf
    cases fuel with
    | zero => simp at hf
    | succ fuel =>
      simp only [stringConcatLoop, PState.cur, PState.adv, List.headD_cons,
        List.cons_append, List.tail_cons]
      rw [if_pos (hall t (List.mem_cons_self t ts))]
      have step := ih fuel (acc ++ t.value) st
        (fun u hu => hall u (List.mem_cons_of_mem t hu)) hcur (by simp at hf; omega)
      rw [step]
      rw [String.append_assoc]
      rfl

/-- C5: a run of adjacent string literals in value position yields a
single String value equal to the separator-free concatenation of the
individual tokens' (escape-decoded) texts; end-to-end, `"a" "b" "c"`
gives `"abc"` and `"a\n" "b"` gives the three-character `"a\nb"` (the
escape was decoded by the lexer before concatenation). -/
theorem c5_string_concatenation :
    (∀ (fuel : Nat) (fs : Fs) (baseDir : String) (depth : Nat)
        (ts : List Token) (st : PState),
        ts ≠ [] → (∀ t ∈ ts, t.type = TokenType.TokenString) →
        st.cur.type ≠ TokenType.TokenString →
        ts.length + 1 ≤ fuel →
        parseValue fuel fs baseDir depth { toks := ts ++ st.toks, finTok := st.finTok } =
          .ok (NewStringValue (tokenValuesConcat ts), st)) ∧
    ParseStringGo [] ("value = \"a\" \"b\" \"c\";") =
      .ok ⟨NewGroupValue [("value", NewStringValue "abc")]⟩ ∧
    ParseStringGo [] ("value = \"a\\n\" \"b\";") =
      .ok ⟨NewGroupValue [("value", NewStringValue "a\nb")]⟩ := by
  refine ⟨?_, rfl, rfl⟩
  intro fuel fs baseDir depth ts st hne hall hcur hf
  cases ts with
  | nil => exact absurd rfl hne
  | cons t ts =>
    cases fuel with
    | zero => simp at hf
    | succ fuel =>
      simp only [parseValue, PState.cur, PState.adv, List.headD_cons,
        List.cons_append, List.tail_cons]
      rw [if_pos (hall t (List.mem_cons_self t ts))]
      have step := stringConcatLoop_run ts fuel t.value st
        (fun u hu => hall u (List.mem_cons_of_mem t hu)) hcur (by simp at hf; omega)
      rw [step]
      rfl

/-- C5 witness: the run-of-strings conjunct applied to two concrete
string tokens followed by a semicolon. -/
theorem c5_witness :
    parseValue 3 [] "" 0
        { toks := [tokAt ("x") .TokenString, tokAt ("y") .TokenString] ++
            [tokAt (";") .TokenSemicolon],
          finTok := tokAt ("") .TokenEOF } =
      .ok (NewStringValue (tokenValuesConcat
            [tokAt ("x") .TokenString, tokAt ("y") .TokenString]),
           { toks := [tokAt (";") .TokenSemicolon], finTok := tokAt ("") .TokenEOF }) :=
  c5_string_concatenation.1 3 [] "" 0
    [tokAt ("x") .TokenString, tokAt ("y") .TokenString]
    { toks := [tokAt (";") .TokenSemicolon], finTok := tokAt ("") .TokenEOF }
    (by decide) (by decide) (by decide) (by decide)

/-! ## C3 -/

/-- C3: in the array comma loop, an element that parses to a kind
different from the first element's makes the whole parse fail with the
mismatch error naming both kind strings and the current line; end to
end, `[1, 2.5]` fails naming `int` and `float`, while the empty array,
a homogeneous array, and a trailing-comma array (2 elements) all
succeed. -/
theorem c3_array_homogeneity :
    (∀ (fuel : Nat) (fs : Fs) (baseDir : String) (depth : Nat)
        (firstElement element : Value) (elements : List Value) (st st2 : PState),
        st.cur.type = TokenType.TokenComma →
        (st.adv).cur.type ≠ TokenType.TokenRightBracket →
        parseValue fuel fs baseDir depth st.adv = .ok (element, st2) →
        element.type ≠ firstElement.type →
        arrayLoop (fuel + 1) fs baseDir depth firstElement elements st =
          .error (.arrayTypeMismatch firstElement.type.goString element.type.goString
                    st2.cur.line)) ∧
    ParseStringGo [] ("v = [1, 2.5];") = .error (.arrayTypeMismatch "int" "float" 1) ∧
    ParseStringGo [] ("v = [];") = .ok ⟨NewGroupValue [("v", NewArrayValue [])]⟩ ∧
    ParseStringGo [] ("v = [1,2,3];") =
      .ok ⟨NewGroupValue [("v", NewArrayValue [NewIntValue 1, NewIntValue 2, NewIntValue 3])]⟩ ∧
    ParseStringGo [] ("v = [\"a\",\"b\",];") =
      .ok ⟨NewGroupValue [("v", NewArrayValue [NewStringValue "a", NewStringValue "b"])]⟩ := by
  refine ⟨?_, rfl, rfl, rfl, rfl⟩
  intro fuel fs baseDir depth firstElement element elements st st2 hcomma hnrb hpv hne
  simp only [arrayLoop]
  rw [if_pos hcomma, if_neg hnrb, hpv]
  dsimp only
  rw [if_pos hne]

/-- C3 witness: the mismatch conjunct applied to a first element of kind
`int` and a second element `true` of kind `bool`. -/
theorem c3_witness :
    arrayLoop 4 [] "" 0 (NewIntValue 1) [NewIntValue 1]
        { toks := [tokAt (",") .TokenComma, tokAt ("true") .TokenBoolean,
                   tokAt ("]") .TokenRightBracket],
          finTok := tokAt ("") .TokenEOF } =
      .error (.arrayTypeMismatch "int" "bool" 1) :=
  c3_array_homogeneity.1 3 [] "" 0 (NewIntValue 1) (NewBoolValue true) [NewIntValue 1]
    { toks := [tokAt (",") .TokenComma, tokAt ("true") .TokenBoolean,
               tokAt ("]") .TokenRightBracket],
      finTok := tokAt ("") .TokenEOF }
    { toks := [tokAt ("]") .TokenRightBracket], finTok := tokAt ("") .TokenEOF }
    rfl (by decide) (by rfl) (by decide)

/-! ## C10 -/

/-- A cons list is not a prefix when the heads differ. -/
theorem isPrefixOf_cons_of_ne {a b : Char} (h : (a == b) = false) (as bs : List Char) :
    (a :: as).isPrefixOf (b :: bs) = false := by
  simp only [List.isPrefixOf, h, Bool.false_and]

/-- C10: the lexer folds a `-` sign into the numeric token, but
`parseIntegerLiteral` only recognises base prefixes at the start of the
text, so `-` followed by a base prefix falls through to decimal parsing
and is rejected with the invalid-integer error; end to end
`value = -0xFF;`, `-0b101`, `-0o7` all fail that way. -/
theorem c10_negative_base_prefix_rejected :
    (∀ (p : Char) (ds : List Char), p ∈ ['x', 'X', 'b', 'B', 'o', 'O', 'q', 'Q'] →
        ds ≠ [] → (∀ c ∈ ds, isHexDigitChar c = true) →
        parseIntegerLiteral (String.mk ('-' :: '0' :: p :: ds)) =
          .error (.invalidIntegerLiteral (String.mk ('-' :: '0' :: p :: ds)))) ∧
    ParseStringGo [] ("value = -0xFF;") =
      .error (.invalidIntegerAt 1 (.invalidIntegerLiteral "-0xFF")) ∧
    ParseStringGo [] ("value = -0b101;") =
      .error (.invalidIntegerAt 1 (.invalidIntegerLiteral "-0b101")) ∧
    ParseStringGo [] ("value = -0o7;") =
      .error (.invalidIntegerAt 1 (.invalidIntegerLiteral "-0o7")) := by
  refine ⟨?_, rfl, rfl, rfl⟩
  intro p ds hp hne hhex
  -- the last character of the literal is a hex digit, hence not space, L or l
  obtain ⟨d0, dr, hrev⟩ : ∃ d0 dr, ds.reverse = d0 :: dr := by
    cases hh : ds.reverse with
    | nil => exact absurd (by simpa using hh) hne
    | cons a b => exact ⟨a, b, rfl⟩
  have hd0mem : d0 ∈ ds := by
    have : d0 ∈ ds.reverse := by rw [hrev]; exact List.mem_cons_self _ _
    simpa using this
  have hd0 : isHexDigitChar d0 = true := hhex d0 hd0mem
  have hrev2 : ('-' :: '0' :: p :: ds).reverse = d0 :: (dr ++ [p, '0', '-']) := by
    simp [hrev, List.append_assoc]
  -- TrimSpace leaves the literal unchanged
  have htrim : goTrimSpaceL ('-' :: '0' :: p :: ds) = '-' :: '0' :: p :: ds := by
    unfold goTrimSpaceL
    rw [List.dropWhile_cons, if_neg (by decide)]
    rw [hrev2, List.dropWhile_cons, if_neg (by simp [hex_not_space hd0])]
    rw [← hrev2, List.reverse_reverse]
  -- the literal has no L/l suffix
  have hL : strEndsWith (String.mk ('-' :: '0' :: p :: ds)) ("L") = false := by
    show (("L").data.reverse.isPrefixOf ('-' :: '0' :: p :: ds).reverse) = false
    rw [show ("L").data.reverse = ['L'] from rfl, hrev2]
    exact isPrefixOf_cons_of_ne (by simpa using (hex_not_ell hd0).1.symm) _ _
  have hl : strEndsWith (String.mk ('-' :: '0' :: p :: ds)) ("l") = false := by
    show (("l").data.reverse.isPrefixOf ('-' :: '0' :: p :: ds).reverse) = false
    rw [show ("l").data.reverse = ['l'] from rfl, hrev2]
    exact isPrefixOf_cons_of_ne (by simpa using (hex_not_ell hd0).2.symm) _ _
  -- none of the base prefixes match a literal starting with '-'
  have hpre : ∀ q : String, q.data.length = 2 → q.data.headD ' ' ≠ '-' →
      strStartsWith (String.mk ('-' :: '0' :: p :: ds)) q = false := by
    intro q h2 hq
    show (q.data.isPrefixOf ('-' :: '0' :: p :: ds)) = false
    cases hqd : q.data with
    | nil => rw [hqd] at h2; simp at h2
    | cons a l =>
      rw [hqd] at hq
      exact isPrefixOf_cons_of_ne (by simpa using hq) _ _
  -- decimal conversion fails at the base-prefix character
  have hdp : digitInBase 10 p = none := by
    fin_cases hp <;> rfl
  have hrd : readDigits 10 ('0' :: p :: ds) 0 = none := by
    simp only [readDigits]
    rw [show digitInBase 10 '0' = some 0 from rfl]
    simp only [readDigits, hdp]
  have hcore : goParseIntCore 10 ('-' :: '0' :: p :: ds) = none := by
    simp only [goParseIntCore]
    rw [hrd]
  -- assemble
  simp only [parseIntegerLiteral]
  dsimp only
  simp only [htrim, hL, hl, Bool.or_false, Bool.false_eq_true, if_false]
  simp only [hpre ("0x") rfl (by decide), hpre ("0X") rfl (by decide),
    hpre ("0b") rfl (by decide), hpre ("0B") rfl (by decide),
    hpre ("0o") rfl (by decide), hpre ("0O") rfl (by decide),
    hpre ("0q") rfl (by decide), hpre ("0Q") rfl (by decide),
    Bool.or_false, Bool.false_eq_true, if_false]
  simp only [goParseInt]
  simp only [hcore]

/-- C10 witness: the general conjunct applied at `-0xFF`. -/
theorem c10_witness :
    parseIntegerLiteral (String.mk ['-', '0', 'x', 'F', 'F']) =
      .error (.invalidIntegerLiteral (String.mk ['-', '0', 'x', 'F', 'F'])) :=
  c10_negative_base_prefix_rejected.1 'x' ['F', 'F'] (by decide) (by decide) (by decide)

/-! ## C7 -/

set_option maxHeartbeats 4000000 in
set_option maxRecDepth 40000 in
/-- C7 (amended): a `\xHH` escape decodes to exactly one code point of
value `HH` only when `HH ≤ 0x7F`; for `HH` in `0x80 .. 0xFF` the
`strconv.ParseInt(hex, 16, 8)` conversion overflows the signed 8-bit
range it is called with, the error is swallowed, and the escape
produces no character at all. -/
theorem c7_hex_escape_bounded :
    ∀ h1 ∈ hexChars, ∀ h2 ∈ hexChars,
      readStringOf (String.mk ['"', '\\', 'x', h1, h2, '"']) =
        (if hexCharVal h1 * 16 + hexCharVal h2 ≤ 127 then
          String.mk [Char.ofNat (hexCharVal h1 * 16 + hexCharVal h2)]
        else "") := by decide

/-- C7 witness: the amended theorem applied at `\x41` (which decodes to
`A`). -/
theorem c7_witness :
    readStringOf (String.mk ['"', '\\', 'x', '4', '1', '"']) =
      (if hexCharVal '4' * 16 + hexCharVal '1' ≤ 127 then
        String.mk [Char.ofNat (hexCharVal '4' * 16 + hexCharVal '1')]
      else "") :=
  c7_hex_escape_bounded '4' (by decide) '1' (by decide)

/-- C7 counterexample: the escape `\xFF` (value `0xFF`, in the range the
claim says must decode to one code point) produces the empty string, not
a one-character string. -/
theorem c7_counterexample :
    readStringOf ("\"\\xFF\"") = "" ∧ ("" : String) ≠ String.mk [Char.ofNat 255] :=
  ⟨rfl, by decide⟩
